import Mathlib

/-!
Shallow embedding of pi-button-pipe (src/main.c): a GPIO button watcher
that debounces pin transitions and writes one text line per accepted
event.  The embedding models the per-line processing step of the main
poll loop (main.c lines 354-425), the pin state reader
(get_pin_state, lines 191-201), the lifecycle/startup sequence
(lines 278-352) and the signal-driven cleanup path (quit_signal and
unexport_pins, lines 120-142).

Time values (time(), gettimeofday()) and the bytes delivered by
read() are inputs to the embedded functions; machine arithmetic is
modelled over Int (the quantities involved stay far below the width
at which C overflow would matter for the properties proved here).
On the target platform (ARM) char is unsigned, so bytes are Nat.
-/

namespace PiButtonPipe

/-- SEC_PER_YEAR, main.c line 55. -/
def SEC_PER_YEAR : Int := 31536000

/-- CLOCK_ERROR_SECONDS, main.c line 56. -/
def CLOCK_ERROR_SECONDS : Int := SEC_PER_YEAR

/-- MAX_PINS, main.c line 59. -/
def MAX_PINS : Nat := 20

/-- EDGE_RISING bit, main.c line 91. -/
def EDGE_RISING : Nat := 1

/-- EDGE_FALLING bit, main.c line 92. -/
def EDGE_FALLING : Nat := 2

/-- BOUNCE_MSEC default, main.c line 64. -/
def BOUNCE_MSEC : Int := 300

/-- Process-wide configuration fixed after option parsing:
the pin list (globals pins/npins), the edge bitmask (global edge,
1 = rising, 2 = falling, 3 = both) and the bounce time in msec. -/
structure Config where
  pins : List Int
  edge : Nat
  bounce_time : Int

/-- The environment inputs consumed while processing one signaled line:
the value of time(NULL) during this step, the gettimeofday() seconds and
microseconds, and the outcome of the read() inside get_pin_state
(none models a failed read, some bytes a read returning those bytes;
read is called with a 3-byte buffer so at most 3 bytes arrive). -/
structure Sample where
  now : Int
  tv_sec : Int
  tv_usec : Nat
  readResult : Option (List Nat)

/-- The clock-guard condition of main.c line 376,
`abs (time (NULL) - start) > CLOCK_ERROR_SECONDS`, after textual
expansion of the macro `abs(x) ((x) > 0 ? (x) : (-x))` at
x = `time (NULL) - start`: the else arm reads
`-time (NULL) - start`, i.e. (-now) - start, not start - now. -/
def clock_error (now start : Int) : Bool :=
  if now - start > 0 then now - start > CLOCK_ERROR_SECONDS
  else -now - start > CLOCK_ERROR_SECONDS

/-- get_pin_state, main.c lines 191-201: read up to 3 bytes from the
value pseudo-file; if exactly two bytes were read return
buff[0] - the code of the zero digit, otherwise return -1. -/
def get_pin_state (r : Option (List Nat)) : Int :=
  match r with
  | none => -1
  | some buff => if buff.length = 2 then (buff.headD 0 : Int) - 48 else -1

/-- total_msec, main.c lines 384-387:
`msec = tv.tv_usec / 1000; total_msec = (tv.tv_sec - start) * 1000.0 + msec`
(the double arithmetic is exact and the truncation to int is exact for
the magnitudes at which the result is used). -/
def total_msec (start : Int) (s : Sample) : Int :=
  (s.tv_sec - start) * 1000 + ((s.tv_usec / 1000 : Nat) : Int)

/-- The edge-policy filter of main.c lines 401-402:
`(state == 0 && (edge & EDGE_FALLING)) || (state == 1 && (edge & EDGE_RISING))`. -/
def edge_pass (edge : Nat) (state : Int) : Bool :=
  (state == 0 && edge &&& EDGE_FALLING != 0) ||
  (state == 1 && edge &&& EDGE_RISING != 0)

/-- The output line written by main.c lines 406-417: the same format
is used for the pipe and for the console.  With both edges enabled the
line is pin, space, state, newline; otherwise just pin, newline. -/
def emit_string (edge : Nat) (pin state : Int) : String :=
  if edge = EDGE_FALLING ||| EDGE_RISING then
    toString pin ++ " " ++ toString state ++ "\n"
  else
    toString pin ++ "\n"

/-- Result of processing one signaled line: the (possibly reset) start
wallclock, the ticks array, the elapsed-msec value recorded into
ticks[i] when the debounce branch of line 391 was entered (none when it
was not), and the output line written (none when nothing was written). -/
structure StepOut where
  start : Int
  ticks : List Int
  accepted : Option Int
  emitted : Option String
deriving DecidableEq

/-- The body of the per-line processing of main.c lines 361-423, for
one line index i whose poll entry reported POLLPRI: first the clock
guard (line 376: reset start and do nothing else), otherwise compute
total_msec and apply the debounce test of line 391; on success sample
the pin (get_pin_state after the settling usleep), emit when the edge
policy passes, and record ticks[i] = total_msec (line 420). -/
def processLine (cfg : Config) (start : Int) (ticks : List Int) (i : Nat)
    (s : Sample) : StepOut :=
  if clock_error s.now start then
    { start := s.now, ticks := ticks, accepted := none, emitted := none }
  else
    let total := total_msec start s
    if total - ticks.getD i 0 > cfg.bounce_time ∧ total > 1000 then
      let state := get_pin_state s.readResult
      { start := start
        ticks := ticks.set i total
        accepted := some total
        emitted :=
          if edge_pass cfg.edge state then
            some (emit_string cfg.edge (cfg.pins.getD i 0) state)
          else none }
    else
      { start := start, ticks := ticks, accepted := none, emitted := none }

/-- Iterated per-line processing over a sequence of signaled-line
events (the main loop of lines 354-425 flattened into the order in
which signaled lines are handled).  Returns the final start value, the
final ticks array, and the log of (line index, recorded elapsed msec)
pairs for every debounce-accepted transition, in order. -/
def runTrace (cfg : Config) :
    Int → List Int → List (Nat × Sample) → Int × List Int × List (Nat × Int)
  | start, ticks, [] => (start, ticks, [])
  | start, ticks, (i, s) :: rest =>
      let r := processLine cfg start ticks i s
      let z := runTrace cfg r.start r.ticks rest
      (z.1, z.2.1,
        (match r.accepted with
         | some t => [(i, t)]
         | none => []) ++ z.2.2)

/-- The timestamps recorded for line j by a run, in order. -/
def acceptedTimes (cfg : Config) (start : Int) (ticks : List Int)
    (trace : List (Nat × Sample)) (j : Nat) : List Int :=
  ((runTrace cfg start ticks trace).2.2.filter (fun p => p.1 == j)).map Prod.snd

/-- Side effects of the lifecycle paths, tagged by the sysfs file
touched: the writes performed by export_pins (lines 207-225) and
unexport_pins (lines 120-130) and the open() of each value file
(line 324). -/
inductive Action where
  | wExport (pin : Int)
  | wDirection (pin : Int)
  | wEdge (pin : Int)
  | openValue (pin : Int)
  | wUnexport (pin : Int)
deriving DecidableEq

/-- unexport_pins, main.c lines 120-130: one write of the pin number to
the unexport control per configured pin, through write_to_file
(lines 101-115), which exits with -1 if the control cannot be opened
(fopen_ok false: the first write fails and the process exits before any
unexport is performed).  Returns the writes performed and the exit code
write_to_file forced, if any. -/
def unexport_pins (fopen_ok : Bool) : List Int → List Action × Option Int
  | [] => ([], none)
  | p :: rest =>
      if fopen_ok then
        let z := unexport_pins fopen_ok rest
        (Action.wUnexport p :: z.1, z.2)
      else ([], some (-1))

/-- export_pins, main.c lines 207-225: per pin, write the pin number to
the export control, write "in" to its direction file and "both" to its
edge file, each through write_to_file. -/
def export_pins (fopen_ok : Bool) : List Int → List Action × Option Int
  | [] => ([], none)
  | p :: rest =>
      if fopen_ok then
        let z := export_pins fopen_ok rest
        (Action.wExport p :: Action.wDirection p :: Action.wEdge p :: z.1, z.2)
      else ([], some (-1))

/-- quit_signal, main.c lines 137-142: unless no_export is set,
unexport every configured pin, then exit(0) (or with write_to_file's
exit code if a write failed first).  Returns the release writes
performed and the exit status argument. -/
def quit_signal (no_export fopen_ok : Bool) (pins : List Int) :
    List Action × Int :=
  if no_export then ([], 0)
  else
    match unexport_pins fopen_ok pins with
    | (w, none) => (w, 0)
    | (w, some e) => (w, e)

/-- The signals for which quit_signal is installed as handler,
main.c lines 334-340: SIGQUIT, SIGTERM, SIGHUP, SIGINT, SIGPIPE. -/
def installed_signals : List Nat := [3, 15, 1, 2, 13]

/-- Dispatch of an incoming signal while the process runs: signals with
an installed handler run quit_signal; none models default disposition. -/
def handle_signal (sig : Nat) (no_export fopen_ok : Bool)
    (pins : List Int) : Option (List Action × Int) :=
  if sig ∈ installed_signals then some (quit_signal no_export fopen_ok pins)
  else none

/-- The loop of main.c lines 318-332: open each pin's value file; on
the first open failure report and exit(-1) immediately (no cleanup). -/
def open_value_loop (openable : Int → Bool) :
    List Int → List Action × Option Int
  | [] => ([], none)
  | p :: rest =>
      if openable p then
        let z := open_value_loop openable rest
        (Action.openValue p :: z.1, z.2)
      else ([Action.openValue p], some (-1))

/-- Startup flags taken from option parsing, plus the positional pin
arguments (main.c lines 241-296). -/
structure StartupConfig where
  posArgs : List Int
  no_export : Bool
  export_only : Bool
  unexport_only : Bool

/-- The startup sequence of main, lines 278-332: argument-count checks
first (fewer than 1 positional argument, or more than MAX_PINS, exit -1
before anything else), then the unexport-only and export-only modes
(exit 0 after their writes), then export of all pins unless disabled,
then the value-file open loop.  Returns the side-effect trace and
some exit code, or none when the process reaches the running loop. -/
def main_startup (c : StartupConfig) (openable : Int → Bool)
    (fopen_ok : Bool) : List Action × Option Int :=
  if c.posArgs.length < 1 then ([], some (-1))
  else if c.posArgs.length > MAX_PINS then ([], some (-1))
  else if c.unexport_only then
    let z := unexport_pins fopen_ok c.posArgs
    (z.1, some (z.2.getD 0))
  else if c.export_only then
    let z := export_pins fopen_ok c.posArgs
    (z.1, some (z.2.getD 0))
  else if c.no_export then
    open_value_loop openable c.posArgs
  else
    let z := export_pins fopen_ok c.posArgs
    match z.2 with
    | some code => (z.1, some code)
    | none =>
        let w := open_value_loop openable c.posArgs
        (z.1 ++ w.1, w.2)

/-! Helper lemmas shared by the claim theorems. -/

/-- processLine under a quiet clock guard, written as a single split on
the debounce condition of line 391. -/
lemma processLine_not_guard (cfg : Config) (start : Int) (ticks : List Int)
    (i : Nat) (s : Sample) (hg : clock_error s.now start = false) :
    processLine cfg start ticks i s =
      if total_msec start s - ticks.getD i 0 > cfg.bounce_time ∧
          total_msec start s > 1000 then
        { start := start
          ticks := ticks.set i (total_msec start s)
          accepted := some (total_msec start s)
          emitted :=
            if edge_pass cfg.edge (get_pin_state s.readResult) then
              some (emit_string cfg.edge (cfg.pins.getD i 0)
                (get_pin_state s.readResult))
            else none }
      else
        { start := start, ticks := ticks, accepted := none, emitted := none } := by
  simp only [processLine, hg, Bool.false_eq_true, if_false]

/-- C1: for every monitored line and every signaled transition that
passes the clock guard, the transition is accepted -- the debounce
branch is entered and the line's last-accepted time ticks[i] is set to
the current elapsed milliseconds -- if and only if the elapsed
milliseconds minus the line's last-accepted time strictly exceeds the
bounce window and the elapsed milliseconds strictly exceed 1000; in
particular no event is accepted within the first 1000 ms. -/
theorem debounce_accept_iff (cfg : Config) (start : Int) (ticks : List Int)
    (i : Nat) (s : Sample) (hg : clock_error s.now start = false) :
    ((total_msec start s - ticks.getD i 0 > cfg.bounce_time ∧
        total_msec start s > 1000) →
      (processLine cfg start ticks i s).accepted = some (total_msec start s) ∧
      (processLine cfg start ticks i s).ticks =
        ticks.set i (total_msec start s)) ∧
    (¬(total_msec start s - ticks.getD i 0 > cfg.bounce_time ∧
        total_msec start s > 1000) →
      (processLine cfg start ticks i s).accepted = none ∧
      (processLine cfg start ticks i s).ticks = ticks ∧
      (processLine cfg start ticks i s).emitted = none) ∧
    (total_msec start s ≤ 1000 →
      (processLine cfg start ticks i s).accepted = none ∧
      (processLine cfg start ticks i s).emitted = none) := by
  rw [processLine_not_guard cfg start ticks i s hg]
  by_cases h : total_msec start s - ticks.getD i 0 > cfg.bounce_time ∧
      total_msec start s > 1000
  · rw [if_pos h]
    exact ⟨fun _ => ⟨rfl, rfl⟩, fun hn => absurd h hn,
      fun hle => absurd h.2 (not_lt.mpr hle)⟩
  · rw [if_neg h]
    exact ⟨fun hc => absurd hc h, fun _ => ⟨rfl, rfl, rfl⟩, fun _ => ⟨rfl, rfl⟩⟩

/-- Witness for debounce_accept_iff at a concrete accepting input. -/
theorem debounce_accept_iff_witness :
    (processLine ⟨[17], 3, 300⟩ 0 [0] 0
        ⟨10, 2, 0, some [49, 10]⟩).accepted = some 2000 ∧
    (processLine ⟨[17], 3, 300⟩ 0 [0] 0
        ⟨10, 2, 0, some [49, 10]⟩).ticks = [2000] := by
  have h := debounce_accept_iff ⟨[17], 3, 300⟩ 0 [0] 0
    ⟨10, 2, 0, some [49, 10]⟩ (by decide)
  have h2 := h.1 (by decide)
  exact ⟨h2.1, h2.2⟩

/-- One-step unfolding of runTrace. -/
lemma runTrace_cons (cfg : Config) (start : Int) (ticks : List Int)
    (i : Nat) (s : Sample) (rest : List (Nat × Sample)) :
    runTrace cfg start ticks ((i, s) :: rest) =
      ((runTrace cfg (processLine cfg start ticks i s).start
          (processLine cfg start ticks i s).ticks rest).1,
       (runTrace cfg (processLine cfg start ticks i s).start
          (processLine cfg start ticks i s).ticks rest).2.1,
       (match (processLine cfg start ticks i s).accepted with
         | some t => [(i, t)]
         | none => []) ++
       (runTrace cfg (processLine cfg start ticks i s).start
          (processLine cfg start ticks i s).ticks rest).2.2) := rfl

/-- Unfolding of acceptedTimes over one processing step. -/
lemma acceptedTimes_cons (cfg : Config) (start : Int) (ticks : List Int)
    (i : Nat) (s : Sample) (rest : List (Nat × Sample)) (j : Nat) :
    acceptedTimes cfg start ticks ((i, s) :: rest) j =
      (match (processLine cfg start ticks i s).accepted with
        | some t => if i = j then [t] else []
        | none => []) ++
      acceptedTimes cfg (processLine cfg start ticks i s).start
        (processLine cfg start ticks i s).ticks rest j := by
  simp only [acceptedTimes, runTrace_cons, List.filter_append, List.map_append]
  cases h : (processLine cfg start ticks i s).accepted with
  | none => simp
  | some t => by_cases hij : i = j <;> simp [hij]

/-- Reading back the entry just written by List.set. -/
lemma getD_set_self (l : List Int) (i : Nat) (a : Int) (h : i < l.length) :
    (l.set i a).getD i 0 = a := by
  rw [List.getD_eq_getD_get?, List.get?_eq_getElem?,
    List.getElem?_set_eq_of_lt a h]
  rfl

/-- List.set leaves other positions unchanged. -/
lemma getD_set_ne (l : List Int) (i j : Nat) (a : Int) (h : i ≠ j) :
    (l.set i a).getD j 0 = l.getD j 0 := by
  rw [List.getD_eq_getD_get?, List.getD_eq_getD_get?, List.get?_eq_getElem?,
    List.get?_eq_getElem?, List.getElem?_set_ne h]

/-- Invariant behind C2: prefixing the current ticks[j] to the
timestamps recorded for line j yields a chain in which every entry
exceeds its predecessor by more than the bounce window, provided the
clock guard stays quiet over the trace and every index is in range. -/
lemma acceptedTimes_chain (cfg : Config) (j : Nat) :
    ∀ (trace : List (Nat × Sample)) (start : Int) (ticks : List Int),
      (∀ p ∈ trace, clock_error (Prod.snd p).now start = false) →
      (∀ p ∈ trace, Prod.fst p < ticks.length) →
      List.Chain' (fun t1 t2 => t2 - t1 > cfg.bounce_time)
        (ticks.getD j 0 :: acceptedTimes cfg start ticks trace j) := by
  intro trace
  induction trace with
  | nil => intro start ticks _ _; exact List.chain'_singleton _
  | cons p rest ih =>
    obtain ⟨i, s⟩ := p
    intro start ticks hg hl
    have hg0 : clock_error s.now start = false := hg (i, s) (by simp)
    have hi : i < ticks.length := hl (i, s) (by simp)
    have hgr : ∀ q ∈ rest, clock_error (Prod.snd q).now start = false :=
      fun q hq => hg q (List.mem_cons_of_mem _ hq)
    have hlr : ∀ q ∈ rest, Prod.fst q < ticks.length :=
      fun q hq => hl q (List.mem_cons_of_mem _ hq)
    rw [acceptedTimes_cons, processLine_not_guard cfg start ticks i s hg0]
    by_cases hc : total_msec start s - ticks.getD i 0 > cfg.bounce_time ∧
        total_msec start s > 1000
    · rw [if_pos hc]
      dsimp only
      by_cases hij : i = j
      · subst hij
        rw [if_pos rfl]
        have ihh := ih start (ticks.set i (total_msec start s)) hgr
          (fun q hq => by rw [List.length_set]; exact hlr q hq)
        rw [getD_set_self ticks i (total_msec start s) hi] at ihh
        exact List.chain'_cons.mpr ⟨hc.1, ihh⟩
      · rw [if_neg hij]
        have ihh := ih start (ticks.set i (total_msec start s)) hgr
          (fun q hq => by rw [List.length_set]; exact hlr q hq)
        rw [getD_set_ne ticks i j (total_msec start s) hij] at ihh
        exact ihh
    · rw [if_neg hc]
      dsimp only
      exact ih start ticks hgr hlr

/-- C2: for every monitored line j, over any trace processed against a
fixed baseline (the clock guard never fires) with in-range indices, the
sequence of debounce-accepted timestamps recorded for j never contains
two consecutive entries whose gap is within the bounce window: each
entry exceeds its predecessor by strictly more than bounce_time. -/
theorem accepted_times_bounce_separated (cfg : Config) (start : Int)
    (ticks : List Int) (trace : List (Nat × Sample)) (j : Nat)
    (hg : ∀ p ∈ trace, clock_error (Prod.snd p).now start = false)
    (hl : ∀ p ∈ trace, Prod.fst p < ticks.length) :
    List.Chain' (fun t1 t2 => t2 - t1 > cfg.bounce_time)
      (acceptedTimes cfg start ticks trace j) :=
  (acceptedTimes_chain cfg j trace start ticks hg hl).tail

/-- Witness for accepted_times_bounce_separated on a concrete
two-acceptance trace. -/
theorem accepted_times_bounce_separated_witness :
    List.Chain' (fun t1 t2 => t2 - t1 > (⟨[17], 3, 300⟩ : Config).bounce_time)
      (acceptedTimes ⟨[17], 3, 300⟩ 0 [0]
        [(0, ⟨10, 2, 0, some [49, 10]⟩), (0, ⟨10, 3, 0, some [48, 10]⟩)] 0) :=
  accepted_times_bounce_separated ⟨[17], 3, 300⟩ 0 [0]
    [(0, ⟨10, 2, 0, some [49, 10]⟩), (0, ⟨10, 3, 0, some [48, 10]⟩)] 0
    (by decide) (by decide)

/-- C3 (code defect): a backward wall-clock jump of more than one year
is not detected.  With start = 100000000 and now = 31536000 the
absolute clock discrepancy is 68464000 s, well above
CLOCK_ERROR_SECONDS, yet clock_error is false -- the abs macro of
main.c line 80 expands (-x) to -time(NULL) - start -- so processLine
keeps the stale baseline instead of resetting it and skipping the
cycle as the specification requires. -/
theorem clock_guard_misses_backward_jump :
    |(31536000 : Int) - 100000000| > CLOCK_ERROR_SECONDS ∧
    clock_error 31536000 100000000 = false ∧
    (processLine ⟨[17], 3, 300⟩ 100000000 [0] 0
        ⟨31536000, 31536000, 0, some [49, 10]⟩).start = 100000000 ∧
    (processLine ⟨[17], 3, 300⟩ 100000000 [0] 0
        ⟨31536000, 31536000, 0, some [49, 10]⟩).emitted = none := by
  refine ⟨by decide, by decide, by decide, by decide⟩

/-- C4: every emitted output line follows the edge policy: with both
edges enabled it is the two-token text pin-space-state-newline and the
sampled state is 0 or 1; with rising-only it is the one-token text
pin-newline and the sampled state is 1 (never 0); with falling-only it
is the one-token text and the sampled state is 0 (never 1). -/
theorem emit_format_follows_edge_policy (cfg : Config) (start : Int)
    (ticks : List Int) (i : Nat) (s : Sample) (str : String)
    (h : (processLine cfg start ticks i s).emitted = some str) :
    (cfg.edge = 3 →
      str = toString (cfg.pins.getD i 0) ++ " " ++
        toString (get_pin_state s.readResult) ++ "\n" ∧
      (get_pin_state s.readResult = 0 ∨ get_pin_state s.readResult = 1)) ∧
    (cfg.edge = 1 →
      str = toString (cfg.pins.getD i 0) ++ "\n" ∧
      get_pin_state s.readResult = 1) ∧
    (cfg.edge = 2 →
      str = toString (cfg.pins.getD i 0) ++ "\n" ∧
      get_pin_state s.readResult = 0) := by
  by_cases hg : clock_error s.now start
  · simp [processLine, hg] at h
  · rw [processLine_not_guard cfg start ticks i s (by simpa using hg)] at h
    by_cases hc : total_msec start s - ticks.getD i 0 > cfg.bounce_time ∧
        total_msec start s > 1000
    · rw [if_pos hc] at h
      dsimp only at h
      by_cases hp : edge_pass cfg.edge (get_pin_state s.readResult) = true
      · rw [if_pos hp] at h
        have hstr : str =
            emit_string cfg.edge (cfg.pins.getD i 0)
              (get_pin_state s.readResult) := (Option.some.inj h).symm
        simp only [edge_pass, Bool.or_eq_true, Bool.and_eq_true, beq_iff_eq,
          bne_iff_ne, ne_eq] at hp
        refine ⟨fun he => ?_, fun he => ?_, fun he => ?_⟩
        · rw [he] at hp hstr
          refine ⟨by rw [hstr]; rfl, ?_⟩
          rcases hp with ⟨h0, _⟩ | ⟨h1, _⟩
          · exact Or.inl h0
          · exact Or.inr h1
        · rw [he] at hp hstr
          refine ⟨by rw [hstr]; rfl, ?_⟩
          rcases hp with ⟨_, hff⟩ | ⟨h1, _⟩
          · exact absurd (by decide) hff
          · exact h1
        · rw [he] at hp hstr
          refine ⟨by rw [hstr]; rfl, ?_⟩
          rcases hp with ⟨h0, _⟩ | ⟨_, hrr⟩
          · exact h0
          · exact absurd (by decide) hrr
      · rw [if_neg hp] at h
        exact absurd h (by simp)
    · rw [if_neg hc] at h
      exact absurd h (by simp)

/-- Witness for emit_format_follows_edge_policy: a rising edge under
the both-edges policy emits the two-token line. -/
theorem emit_format_follows_edge_policy_witness :
    "23 1\n" = toString ((23 : Int)) ++ " " ++
      toString (get_pin_state (some [49, 10])) ++ "\n" ∧
    (get_pin_state (some [49, 10]) = 0 ∨ get_pin_state (some [49, 10]) = 1) := by
  have h := emit_format_follows_edge_policy ⟨[23], 3, 300⟩ 0 [0] 0
    ⟨10, 4, 0, some [49, 10]⟩ "23 1\n" (by decide)
  exact h.1 rfl

/-- C5 (counterexample): a transition that passes the debounce test but
whose pin read fails is dropped without an emit, yet program state IS
mutated: ticks[0] moves from 0 to 2000.  The claim that no state is
mutated on a read failure is false of the code (main.c line 420 runs
regardless of the read outcome). -/
theorem read_failure_still_updates_ticks_cex :
    get_pin_state (none : Option (List Nat)) = -1 ∧
    (processLine ⟨[17], 3, 300⟩ 0 [0] 0 ⟨10, 2, 0, none⟩).emitted = none ∧
    (processLine ⟨[17], 3, 300⟩ 0 [0] 0 ⟨10, 2, 0, none⟩).ticks = [2000] ∧
    ([2000] : List Int) ≠ [0] := by decide

/-- C5 (amended): when the pin read fails (get_pin_state returns -1)
on a transition that passed the clock guard and the debounce test, the
event is dropped with no emit and no retry and the loop continues with
the baseline unchanged, but the line's last-accepted timestamp is
still updated to the current elapsed milliseconds. -/
theorem read_failure_drops_event_but_updates_ticks (cfg : Config)
    (start : Int) (ticks : List Int) (i : Nat) (s : Sample)
    (hg : clock_error s.now start = false)
    (hc : total_msec start s - ticks.getD i 0 > cfg.bounce_time ∧
      total_msec start s > 1000)
    (hf : get_pin_state s.readResult = -1) :
    (processLine cfg start ticks i s).emitted = none ∧
    (processLine cfg start ticks i s).start = start ∧
    (processLine cfg start ticks i s).ticks =
      ticks.set i (total_msec start s) := by
  rw [processLine_not_guard cfg start ticks i s hg, if_pos hc]
  refine ⟨?_, rfl, rfl⟩
  dsimp only
  rw [hf]
  simp [edge_pass]

/-- Witness for read_failure_drops_event_but_updates_ticks at a
concrete failing read. -/
theorem read_failure_drops_event_but_updates_ticks_witness :
    (processLine ⟨[17], 3, 300⟩ 0 [0] 0 ⟨10, 3, 0, none⟩).emitted = none ∧
    (processLine ⟨[17], 3, 300⟩ 0 [0] 0 ⟨10, 3, 0, none⟩).start = 0 ∧
    (processLine ⟨[17], 3, 300⟩ 0 [0] 0 ⟨10, 3, 0, none⟩).ticks =
      [0].set 0 (total_msec 0 ⟨10, 3, 0, none⟩) :=
  read_failure_drops_event_but_updates_ticks ⟨[17], 3, 300⟩ 0 [0] 0
    ⟨10, 3, 0, none⟩ (by decide) (by decide) (by decide)

/-- C9 (counterexample): a two-byte read whose first byte is not a
digit -- here the letter x, byte 120 -- is not treated as a read
failure: get_pin_state returns 72, not -1, although the value is not
in the one-digit-plus-terminator format.  Only the byte count is
validated. -/
theorem get_pin_state_malformed_two_bytes_cex :
    get_pin_state (some [120, 10]) = 72 ∧
    get_pin_state (some [120, 10]) ≠ -1 ∧
    get_pin_state (some [120, 10]) ≠ 0 ∧
    get_pin_state (some [120, 10]) ≠ 1 ∧
    ¬(48 ≤ 120 ∧ 120 ≤ 57) := by decide

/-- C9 (amended): get_pin_state validates only the byte count of the
read.  A failed read or one that does not deliver exactly two bytes
yields -1; any two-byte read yields first byte minus the code of the
zero digit, which is the logic level 0 or 1 exactly when the value is
a 0 or 1 digit plus terminator. -/
theorem get_pin_state_length_check_only (r : Option (List Nat)) :
    (r = none → get_pin_state r = -1) ∧
    (∀ buff, r = some buff → buff.length ≠ 2 → get_pin_state r = -1) ∧
    (∀ buff, r = some buff → buff.length = 2 →
      get_pin_state r = (buff.headD 0 : Int) - 48) ∧
    (∀ (b t : Nat), r = some [48 + b, t] → get_pin_state r = (b : Int)) := by
  refine ⟨?_, ?_, ?_, ?_⟩
  · rintro rfl; rfl
  · rintro buff rfl hlen; simp [get_pin_state, hlen]
  · rintro buff rfl hlen; simp [get_pin_state, hlen]
  · rintro b t rfl
    simp [get_pin_state]

/-- Witness for get_pin_state_length_check_only: the well-formed value
one-digit-newline reads as logic level 1. -/
theorem get_pin_state_length_check_only_witness :
    get_pin_state (some [49, 10]) = 1 := by
  have h := get_pin_state_length_check_only (some [49, 10])
  simpa using h.2.2.2 1 10 rfl

/-- C10: a transition that passes the clock guard and both debounce
conditions but is rejected by the edge-policy filter emits nothing,
yet the line's last-accepted timestamp is still set to the current
elapsed milliseconds, so it suppresses later transitions on that line
for a further bounce window. -/
theorem policy_rejected_transition_updates_ticks (cfg : Config)
    (start : Int) (ticks : List Int) (i : Nat) (s : Sample)
    (hg : clock_error s.now start = false)
    (hc : total_msec start s - ticks.getD i 0 > cfg.bounce_time ∧
      total_msec start s > 1000)
    (hrej : edge_pass cfg.edge (get_pin_state s.readResult) = false) :
    (processLine cfg start ticks i s).emitted = none ∧
    (processLine cfg start ticks i s).accepted = some (total_msec start s) ∧
    (processLine cfg start ticks i s).ticks =
      ticks.set i (total_msec start s) := by
  rw [processLine_not_guard cfg start ticks i s hg, if_pos hc]
  refine ⟨?_, rfl, rfl⟩
  dsimp only
  simp [hrej]

/-- Witness for policy_rejected_transition_updates_ticks: a falling
edge sampled under the rising-only policy. -/
theorem policy_rejected_transition_updates_ticks_witness :
    (processLine ⟨[27], 1, 300⟩ 0 [0] 0 ⟨10, 2, 0, some [48, 10]⟩).emitted
      = none ∧
    (processLine ⟨[27], 1, 300⟩ 0 [0] 0 ⟨10, 2, 0, some [48, 10]⟩).accepted
      = some (total_msec 0 ⟨10, 2, 0, some [48, 10]⟩) ∧
    (processLine ⟨[27], 1, 300⟩ 0 [0] 0 ⟨10, 2, 0, some [48, 10]⟩).ticks
      = [0].set 0 (total_msec 0 ⟨10, 2, 0, some [48, 10]⟩) :=
  policy_rejected_transition_updates_ticks ⟨[27], 1, 300⟩ 0 [0] 0
    ⟨10, 2, 0, some [48, 10]⟩ (by decide) (by decide) (by decide)

/-- unexport_pins with a writable unexport control performs exactly one
release write per pin, in order, and forces no exit. -/
lemma unexport_pins_ok (l : List Int) :
    unexport_pins true l = (l.map Action.wUnexport, none) := by
  induction l with
  | nil => rfl
  | cons p rest ih => simp [unexport_pins, ih]

/-- export_pins with writable controls forces no exit. -/
lemma export_pins_exit_none (l : List Int) :
    (export_pins true l).2 = none := by
  induction l with
  | nil => rfl
  | cons p rest ih => simp [export_pins, ih]

/-- export_pins never writes to the unexport control. -/
lemma export_pins_no_unexport (l : List Int) :
    ∀ p, Action.wUnexport p ∉ (export_pins true l).1 := by
  induction l with
  | nil => intro p; simp [export_pins]
  | cons q rest ih =>
      intro p
      simp [export_pins]
      exact ih p

/-- The value-file open loop never writes to the unexport control. -/
lemma open_value_loop_no_unexport (openable : Int → Bool) (l : List Int) :
    ∀ p, Action.wUnexport p ∉ (open_value_loop openable l).1 := by
  induction l with
  | nil => intro p; simp [open_value_loop]
  | cons q rest ih =>
      intro p
      by_cases hq : openable q = true
      · simp [open_value_loop, hq]
        exact ih p
      · simp [open_value_loop, hq]

/-- If some pin's value file cannot be opened, the open loop forces
exit code -1. -/
lemma open_value_loop_fails (openable : Int → Bool) :
    ∀ l : List Int, (∃ p ∈ l, openable p = false) →
      (open_value_loop openable l).2 = some (-1) := by
  intro l
  induction l with
  | nil => rintro ⟨p, hp, _⟩; cases hp
  | cons q rest ih =>
      rintro ⟨p, hp, hpo⟩
      by_cases hq : openable q = true
      · have hpq : p ≠ q := fun h => by
          rw [h, hq] at hpo; cases hpo
        simp only [open_value_loop, hq, if_true]
        exact ih ⟨p, List.mem_of_ne_of_mem hpq hp, hpo⟩
      · simp [open_value_loop, hq]

/-- C6: while running, each of the five handled termination signals
(SIGQUIT 3, SIGTERM 15, SIGHUP 1, SIGINT 2, SIGPIPE 13) dispatches to
quit_signal, which -- with the unexport control writable -- performs
exactly one release write per configured line, in configuration order,
and exits with status 0; with acquisition disabled (no_export) it
releases nothing and still exits 0. -/
theorem signal_releases_all_pins (sig : Nat) (pins : List Int)
    (hs : sig ∈ installed_signals) :
    handle_signal sig false true pins = some (pins.map Action.wUnexport, 0) ∧
    handle_signal sig true true pins = some ([], 0) := by
  constructor
  · simp [handle_signal, hs, quit_signal, unexport_pins_ok]
  · simp [handle_signal, hs, quit_signal]

/-- Witness for signal_releases_all_pins at SIGTERM with lines 17, 27. -/
theorem signal_releases_all_pins_witness :
    handle_signal 15 false true [17, 27] =
      some ([Action.wUnexport 17, Action.wUnexport 27], 0) ∧
    handle_signal 15 true true [17, 27] = some ([], 0) :=
  signal_releases_all_pins 15 [17, 27] (by decide)

/-- C7 (counterexample): with one configured line whose value file
cannot be opened, the process exports the line, fails the open, exits
with -1 and performs NO release write: the already-exported line is
not unexported on this path (main.c line 328 exits directly and the
signal handlers are not yet installed). -/
theorem open_failure_no_release_cex :
    main_startup ⟨[5], false, false, false⟩ (fun _ => false) true =
      ([Action.wExport 5, Action.wDirection 5, Action.wEdge 5,
        Action.openValue 5], some (-1)) ∧
    Action.wUnexport 5 ∉
      (main_startup ⟨[5], false, false, false⟩ (fun _ => false) true).1 := by
  decide

/-- C7 (amended): if some line's value file cannot be opened at
startup (and the run is not an export-only or unexport-only run), the
process exits with the nonzero status -1 without entering the running
state, and no already-exported line is released: no unexport write
occurs on this path. -/
theorem open_failure_exits_without_release (c : StartupConfig)
    (openable : Int → Bool)
    (hne : c.export_only = false) (hnu : c.unexport_only = false)
    (hfail : ∃ p ∈ c.posArgs, openable p = false) :
    (main_startup c openable true).2 = some (-1) ∧
    ∀ p, Action.wUnexport p ∉ (main_startup c openable true).1 := by
  by_cases h1 : c.posArgs.length < 1
  · simp [main_startup, h1]
  · by_cases h2 : c.posArgs.length > MAX_PINS
    · simp [main_startup, h1, h2]
    · by_cases h3 : c.no_export = true
      · simp only [main_startup, if_neg h1, if_neg h2, hnu, hne, h3,
          Bool.false_eq_true, if_false, if_true]
        exact ⟨open_value_loop_fails openable c.posArgs hfail,
          open_value_loop_no_unexport openable c.posArgs⟩
      · simp only [main_startup, if_neg h1, if_neg h2, hnu, hne, h3,
          Bool.false_eq_true, if_false]
        rw [show (export_pins true c.posArgs).2 = none from
          export_pins_exit_none c.posArgs]
        refine ⟨open_value_loop_fails openable c.posArgs hfail, fun p => ?_⟩
        rw [List.mem_append]
        push_neg
        exact ⟨export_pins_no_unexport c.posArgs p,
          open_value_loop_no_unexport openable c.posArgs p⟩

/-- Witness for open_failure_exits_without_release: two configured
lines of which the second cannot be opened. -/
theorem open_failure_exits_without_release_witness :
    (main_startup ⟨[5, 6], false, false, false⟩ (fun p => p == 5) true).2 =
      some (-1) ∧
    ∀ p, Action.wUnexport p ∉
      (main_startup ⟨[5, 6], false, false, false⟩ (fun p => p == 5) true).1 :=
  open_failure_exits_without_release ⟨[5, 6], false, false, false⟩
    (fun p => p == 5) rfl rfl ⟨6, by decide, by decide⟩

/-- C8: an empty line list, or one longer than MAX_PINS = 20, makes
startup exit immediately with the nonzero status -1 and an empty
side-effect trace: no export, direction or edge write and no value
open is performed. -/
theorem bad_line_count_exits_before_acquisition (c : StartupConfig)
    (openable : Int → Bool) (fopen_ok : Bool)
    (h : c.posArgs.length = 0 ∨ c.posArgs.length > MAX_PINS) :
    main_startup c openable fopen_ok = ([], some (-1)) ∧ (-1 : Int) ≠ 0 := by
  refine ⟨?_, by decide⟩
  rcases h with h | h
  · simp [main_startup, h]
  · have h1 : ¬ c.posArgs.length < 1 := by
      simp only [MAX_PINS] at h
      omega
    simp [main_startup, h1, h]

/-- Witness for bad_line_count_exits_before_acquisition with 21 lines. -/
theorem bad_line_count_exits_before_acquisition_witness :
    main_startup
      ⟨[1, 2, 3, 4, 5, 6, 7, 8, 9, 10, 11, 12, 13, 14, 15, 16, 17, 18,
        19, 20, 21], false, false, false⟩ (fun _ => true) true =
      ([], some (-1)) ∧ (-1 : Int) ≠ 0 :=
  bad_line_count_exits_before_acquisition
    ⟨[1, 2, 3, 4, 5, 6, 7, 8, 9, 10, 11, 12, 13, 14, 15, 16, 17, 18,
      19, 20, 21], false, false, false⟩ (fun _ => true) true (by decide)

end PiButtonPipe
